import Mathlib

/-!
Shallow embedding of scripts/netplan_converter.py: the NetplanConverter
class (convert, process of ethernets and wifis, the interface-block
builder, the wpa_supplicant document builder, and the CIDR-to-netmask
conversion).  YAML dictionaries become structures of optional fields,
mappings keep their YAML order as association lists, and Python
exceptions become Except values.
-/

namespace Netplan

/-- One entry of a routes list: the keys to and via may each be absent
(toDest models the key named to, a reserved word here). -/
structure Route where
  toDest : Option String := none
  via : Option String := none

/-- The nameservers sub-dictionary: its addresses key may be absent. -/
structure NameserversCfg where
  addresses : Option (List String) := none

/-- One access point entry under access-points; absent keys are none,
hidden models get with default False. -/
structure APConfig where
  password : Option String := none
  hidden : Bool := false
  priority : Option Int := none
  mode : Option String := none
  auth : Option String := none

/-- One interface entry under ethernets or wifis.  Absent keys are none;
dhcp4, dhcp6 and addresses model dictionary get with defaults False,
False, and the empty list. -/
structure IfaceConfig where
  dhcp4 : Bool := false
  dhcp6 : Bool := false
  addresses : List String := []
  gateway4 : Option String := none
  nameservers : Option NameserversCfg := none
  mtu : Option Nat := none
  routes : Option (List Route) := none
  accessPoints : Option (List (String × APConfig)) := none

/-- The keys the converter reads at one nesting level of the document:
version, ethernets, wifis. -/
structure NetworkSection where
  version : Option Int := none
  ethernets : Option (List (String × IfaceConfig)) := none
  wifis : Option (List (String × IfaceConfig)) := none

/-- The whole document: top holds its top-level keys, network the
optional wrapper dictionary; the code reads
self.config.get "network" with the whole document as the default. -/
structure Config where
  top : NetworkSection := {}
  network : Option NetworkSection := none

/-- The dotted-decimal formatting of the four octets of a 32-bit mask,
most significant first, as in the return of _cidr_to_netmask. -/
def netmaskOctets (mask : Nat) : String :=
  String.intercalate "." [
    toString ((mask >>> 24) &&& 0xff),
    toString ((mask >>> 16) &&& 0xff),
    toString ((mask >>> 8) &&& 0xff),
    toString (mask &&& 0xff)]

/-- _cidr_to_netmask: mask = (0xffffffff >> (32 - prefixLen)) << (32 - prefixLen),
then dotted-decimal octets.  (The Python caller only reaches this with
0 <= prefixLen <= 32; larger values raise in Python and are rejected
before the call in this embedding.) -/
def cidrToNetmask (prefixLen : Nat) : String :=
  netmaskOctets ((0xffffffff >>> (32 - prefixLen)) <<< (32 - prefixLen))

/-- f-string: auto interface line. -/
def autoLine (n : String) : String := "auto " ++ n

/-- f-string: DHCP iface line. -/
def dhcpLine (n : String) : String := "iface " ++ n ++ " inet dhcp"

/-- f-string: static iface line. -/
def staticLine (n : String) : String := "iface " ++ n ++ " inet static"

/-- f-string: manual iface line. -/
def manualLine (n : String) : String := "iface " ++ n ++ " inet manual"

/-- f-string: indented address line. -/
def addressLine (ip : String) : String := "    address " ++ ip

/-- f-string: indented netmask line. -/
def netmaskLine (m : String) : String := "    netmask " ++ m

/-- f-string: indented gateway line. -/
def gatewayLine (g : String) : String := "    gateway " ++ g

/-- f-string: indented dns-nameservers line (argument already joined). -/
def dnsLine (s : String) : String := "    dns-nameservers " ++ s

/-- literal wpa-driver directive line. -/
def wpaDriverLine : String := "    wpa-driver wext"

/-- f-string: wpa_supplicant configuration path for an interface. -/
def wpaConfPath (n : String) : String :=
  "/etc/wpa_supplicant/wpa_supplicant-" ++ n ++ ".conf"

/-- f-string: indented wpa-conf directive line. -/
def wpaConfLine (n : String) : String := "    wpa-conf " ++ wpaConfPath n

/-- f-string: indented mtu line. -/
def mtuLine (m : Nat) : String := "    mtu " ++ toString m

/-- f-string: indented up route line. -/
def routeUpLine (t v : String) : String :=
  "    up route add -net " ++ t ++ " gw " ++ v

/-- f-string: indented down route line. -/
def routeDownLine (t v : String) : String :=
  "    down route del -net " ++ t ++ " gw " ++ v

/-- f-string: quoted ssid line of a wpa_supplicant network block. -/
def ssidLine (ssid : String) : String := "    ssid=\"" ++ ssid ++ "\""

/-- f-string: unquoted psk line (pre-hashed key). -/
def pskUnquoted (pw : String) : String := "    psk=" ++ pw

/-- f-string: quoted psk line (plaintext password). -/
def pskQuoted (pw : String) : String := "    psk=\"" ++ pw ++ "\""

/-- f-string: priority line of a network block. -/
def priorityLine (p : Int) : String := "    priority=" ++ toString p

/-- Membership in the Python literal string of hex digits
used by the psk check. -/
def isHexChar (c : Char) : Bool :=
  "0123456789abcdefABCDEF".data.contains c

/-- len(password) == 64 and all characters hexadecimal: the pre-hashed
psk check of _generate_wpa_supplicant_config. -/
def isPreHashedPsk (pw : String) : Bool :=
  pw.length == 64 && pw.data.all isHexChar

/-- The password fragment of a network block: pre-hashed keys unquoted,
anything else quoted, nothing when the key is absent. -/
def pskLines (ap : APConfig) : List String :=
  match ap.password with
  | some pw =>
    if isPreHashedPsk pw then [pskUnquoted pw] else [pskQuoted pw]
  | none => []

/-- The hidden-network fragment. -/
def hiddenLines (ap : APConfig) : List String :=
  if ap.hidden then ["    scan_ssid=1"] else []

/-- The priority fragment. -/
def prioLines (ap : APConfig) : List String :=
  match ap.priority with
  | some p => [priorityLine p]
  | none => []

/-- The mode fragment: a line only for adhoc mode. -/
def modeLines (ap : APConfig) : List String :=
  if ap.mode.getD "infrastructure" == "adhoc" then ["    mode=1"] else []

/-- The auth fragment: a line only for open auth. -/
def authLines (ap : APConfig) : List String :=
  match ap.auth with
  | some a => if a == "open" then ["    key_mgmt=NONE"] else []
  | none => []

/-- One network block of the wpa_supplicant document, for one
ssid and its access-point configuration. -/
def apBlock (ssid : String) (ap : APConfig) : List String :=
  ["network=\x7b", ssidLine ssid]
  ++ pskLines ap ++ hiddenLines ap ++ prioLines ap
  ++ modeLines ap ++ authLines ap
  ++ ["\x7d", ""]

/-- The lines of the wpa_supplicant document: the fixed preamble,
then one block per access point in mapping order. -/
def wpaLines (accessPoints : List (String × APConfig)) : List String :=
  ["update_config=1", ""] ++ (accessPoints.map (fun p => apBlock p.1 p.2)).flatten

/-- _generate_wpa_supplicant_config: the joined document text. -/
def generateWpaSupplicantConfig (accessPoints : List (String × APConfig)) : String :=
  String.intercalate "\n" (wpaLines accessPoints)

/-- The static-address loop of _add_interface_config: for each address,
the address line and, when the address carries a CIDR suffix, the
netmask line.  Python raises (ValueError) when the split does not give
exactly two parts, when the suffix is not a numeral, or when the shift
count 32 - prefixLen would be negative; those cases are errors here.  addrLinesOne is one iteration of the
loop, staticAddrLines the whole loop. -/
def splitChar (c : Char) : List Char → List Char → List String
  | [], acc => [String.mk acc.reverse]
  | x :: xs, acc =>
    if x = c then String.mk acc.reverse :: splitChar c xs []
    else splitChar c xs (x :: acc)

/-- str.split of Python with a one-character separator: the chunks
between occurrences of the separator, empty chunks kept. -/
def splitOnSlash (s : String) : List String := splitChar '/' s.data []

def parseNatAux : List Char → Nat → Option Nat
  | [], acc => some acc
  | c :: cs, acc =>
    if c.isDigit then parseNatAux cs (acc * 10 + (c.toNat - 48)) else none

/-- int() of Python restricted to plain decimal numerals, the only form
a CIDR suffix takes; anything else is a parse failure. -/
def parseNat (s : String) : Option Nat :=
  if s.data.isEmpty then none else parseNatAux s.data 0

def addrLinesOne (addr : String) : Except String (List String) :=
  if addr.data.contains '/' then
    match splitOnSlash addr with
    | [ip, pl] =>
      match parseNat pl with
      | some n =>
        if n ≤ 32 then .ok [addressLine ip, netmaskLine (cidrToNetmask n)]
        else .error "negative shift count"
      | none => .error ("invalid literal for int() with base 10: " ++ pl)
    | _ => .error "too many values to unpack"
  else .ok [addressLine addr]

def staticAddrLines : List String → Except String (List String)
  | [] => .ok []
  | addr :: rest =>
    match addrLinesOne addr with
    | .error e => .error e
    | .ok ls =>
      match staticAddrLines rest with
      | .error e => .error e
      | .ok tl => .ok (ls ++ tl)

/-- The gateway4 fragment (inside the static branch in the source). -/
def gatewayLines (cfg : IfaceConfig) : List String :=
  match cfg.gateway4 with
  | some g => [gatewayLine g]
  | none => []

/-- The nameservers fragment (inside the static branch in the source). -/
def dnsLines (cfg : IfaceConfig) : List String :=
  match cfg.nameservers with
  | some ns =>
    match ns.addresses with
    | some ads => [dnsLine (String.intercalate " " ads)]
    | none => []
  | none => []

/-- The wifi fragment of _add_interface_config: when the interface is a
wifi one and the access-points key is present, the two directive lines
and the registered wpa_supplicant document. -/
def wifiPart (ifaceName : String) (cfg : IfaceConfig) (isWifi : Bool) :
    List String × Option String :=
  if isWifi then
    match cfg.accessPoints with
    | some aps =>
      ([wpaDriverLine, wpaConfLine ifaceName],
       some (generateWpaSupplicantConfig aps))
    | none => ([], none)
  else ([], none)

/-- The mtu fragment. -/
def mtuLines (cfg : IfaceConfig) : List String :=
  match cfg.mtu with
  | some m => [mtuLine m]
  | none => []

/-- The routes loop: each route with both to and via produces the pair
of up and down lines, others produce nothing. -/
def routeLinesList : List Route → List String
  | [] => []
  | r :: rest =>
    (match r.toDest, r.via with
     | some t, some v => [routeUpLine t v, routeDownLine t v]
     | _, _ => []) ++ routeLinesList rest

/-- The routes fragment (key present or not). -/
def routesLines (cfg : IfaceConfig) : List String :=
  match cfg.routes with
  | some rs => routeLinesList rs
  | none => []

/-- The addressing branch of _add_interface_config, mirroring the
source: dhcp4 first, else static when the address list is non-empty
(gateway4 and nameservers are emitted inside that branch only), else
manual. -/
def ifaceModeLines (ifaceName : String) (cfg : IfaceConfig) :
    Except String (List String) :=
  if cfg.dhcp4 then .ok [dhcpLine ifaceName]
  else if cfg.addresses.isEmpty then .ok [manualLine ifaceName]
  else
    match staticAddrLines cfg.addresses with
    | .error e => .error e
    | .ok sl =>
      .ok ([staticLine ifaceName] ++ sl ++ gatewayLines cfg ++ dnsLines cfg)

/-- _add_interface_config: the block of lines of one interface (ending
with its blank line) and the optionally registered wpa_supplicant
document. -/
def addInterfaceConfig (ifaceName : String) (cfg : IfaceConfig) (isWifi : Bool) :
    Except String (List String × Option String) :=
  match ifaceModeLines ifaceName cfg with
  | .error e => .error e
  | .ok mid =>
    let wp := wifiPart ifaceName cfg isWifi
    .ok ([autoLine ifaceName] ++ mid ++ wp.1 ++ mtuLines cfg
           ++ routesLines cfg ++ [""],
         wp.2)

/-- The wpa_supplicant registration of one interface: a single mapping
entry when a document was produced, nothing otherwise. -/
def wpaEntry (k : String) : Option String → List (String × String)
  | some w => [(k, w)]
  | none => []

/-- _process_ethernets and _process_wifis, parameterized by the wifi
flag: every entry in mapping order, the reserved key renderer skipped;
each block appended to the interface lines, each produced wpa_supplicant
document registered under its interface name. -/
def processInterfaces :
    List (String × IfaceConfig) → Bool →
    Except String (List String × List (String × String))
  | [], _ => .ok ([], [])
  | (ifn, cfg) :: rest, isWifi =>
    if ifn == "renderer" then processInterfaces rest isWifi
    else
      match addInterfaceConfig ifn cfg isWifi with
      | .error e => .error e
      | .ok (lines, wpa) =>
        match processInterfaces rest isWifi with
        | .error e => .error e
        | .ok (restLines, restWpa) =>
          .ok (lines ++ restLines, wpaEntry ifn wpa ++ restWpa)

/-- The fixed loopback block that convert always emits first. -/
def loopbackBlock : List String := ["auto lo", "iface lo inet loopback", ""]

/-- The implicit default eth0 block. -/
def defaultEth0Block : List String := ["auto eth0", "iface eth0 inet dhcp", ""]

/-- network = self.config.get "network" with the document itself as
the default. -/
def netOf (c : Config) : NetworkSection := c.network.getD c.top

/-- Whether eth0 is explicitly configured: the ethernets key is present
and carries an eth0 entry. -/
def ethHasEth0 (c : Config) : Bool :=
  match (netOf c).ethernets with
  | some es => (es.map Prod.fst).contains "eth0"
  | none => false

/-- The ethernet pass of convert: processed only when the ethernets key
is present. -/
def ethResult (c : Config) :
    Except String (List String × List (String × String)) :=
  match (netOf c).ethernets with
  | some es => processInterfaces es false
  | none => .ok ([], [])

/-- The wifi pass of convert: processed only when the wifis key is
present. -/
def wifiResult (c : Config) :
    Except String (List String × List (String × String)) :=
  match (netOf c).wifis with
  | some ws => processInterfaces ws true
  | none => .ok ([], [])

/-- convert, up to the final join: the version check (top-level version
key, default 2), the loopback block, the ethernet blocks, the implicit
default eth0 block when eth0 is not explicitly configured, and the wifi
blocks, together with the mapping of wpa_supplicant documents. -/
def convertLines (c : Config) :
    Except String (List String × List (String × String)) :=
  let version := c.top.version.getD 2
  if version ≠ 2 then
    .error ("Unsupported netplan version: " ++ toString version)
  else
    match ethResult c with
    | .error e => .error e
    | .ok (ethL, ethW) =>
      match wifiResult c with
      | .error e => .error e
      | .ok (wifiL, wifiW) =>
        .ok (loopbackBlock ++ ethL
               ++ (if ethHasEth0 c then [] else defaultEth0Block) ++ wifiL,
             ethW ++ wifiW)

/-- convert: the joined interface file text and the mapping of
wpa_supplicant documents. -/
def convert (c : Config) : Except String (String × List (String × String)) :=
  match convertLines c with
  | .error e => .error e
  | .ok (ls, w) => .ok (String.intercalate "\n" ls, w)

/-- Formulation of the claimed CIDR-to-netmask behavior, written from the
words of the claim: the mask of the stated bit computation, rendered as
four dot-separated decimal octets most significant first. -/
def specNetmask (p : Nat) : String :=
  let mask := (0xffffffff >>> (32 - p)) <<< (32 - p)
  toString (mask / 16777216 % 256) ++ "." ++ toString (mask / 65536 % 256)
    ++ "." ++ toString (mask / 256 % 256) ++ "." ++ toString (mask % 256)

/-- Formulation of the claimed route emission, written from the words of
the claim: routes with both endpoints kept in order, each producing
exactly its adjacent pair of up and down lines, incomplete routes
producing nothing. -/
def routeSpecLines (rs : List Route) : List String :=
  (rs.filterMap fun r =>
    match r.toDest, r.via with
    | some t, some v => some (t, v)
    | _, _ => none).flatMap fun p => [routeUpLine p.1 p.2, routeDownLine p.1 p.2]

/-! String-prefix toolkit used to tell the different emitted lines apart. -/

/-- Decidable starts-with at the character-list level. -/
def strStarts (p s : String) : Bool := p.data.isPrefixOf s.data

theorem strStarts_iff {p s : String} : strStarts p s = true ↔ p.data <+: s.data := by
  simp [strStarts]

theorem not_pref_of_false {p q : List Char}
    (h : p.isPrefixOf q = false) : ¬ p <+: q := by
  intro hh
  rw [← List.isPrefixOf_iff_prefix] at hh
  rw [h] at hh
  exact Bool.noConfusion hh

/-- A prefix stays a prefix after appending on the right. -/
theorem strStarts_append_lit {p c : String} (t : String)
    (h : strStarts p c = true) : strStarts p (c ++ t) = true := by
  rw [strStarts_iff] at h ⊢
  rw [String.data_append]
  exact h.trans (List.prefix_append _ _)

/-- Two mutually non-prefix strings cannot both start the same string. -/
theorem starts_excl {p q s : String}
    (h1 : p.data.isPrefixOf q.data = false)
    (h2 : q.data.isPrefixOf p.data = false)
    (hp : strStarts p s = true) : strStarts q s = false := by
  rw [strStarts_iff] at hp
  cases hq : strStarts q s with
  | false => rfl
  | true =>
    rw [strStarts_iff] at hq
    rcases List.prefix_or_prefix_of_prefix hq hp with hc | hc
    · exact absurd hc (not_pref_of_false h2)
    · exact absurd hc (not_pref_of_false h1)

theorem ne_of_starts {p a b : String} (ha : strStarts p a = true)
    (hb : strStarts p b = false) : a ≠ b := by
  intro h
  rw [h] at ha
  rw [ha] at hb
  exact Bool.noConfusion hb

theorem ne_of_data_length {a b : String}
    (h : a.data.length ≠ b.data.length) : a ≠ b := by
  intro hh
  rw [hh] at h
  exact h rfl

/-! Canonical leading literals of every emitted line shape. -/

theorem starts_autoLine (n : String) : strStarts "auto " (autoLine n) = true :=
  strStarts_append_lit n (by decide)

theorem starts_dhcpLine (n : String) : strStarts "iface " (dhcpLine n) = true :=
  strStarts_append_lit _ (strStarts_append_lit _ (by decide))

theorem starts_staticLine (n : String) : strStarts "iface " (staticLine n) = true :=
  strStarts_append_lit _ (strStarts_append_lit _ (by decide))

theorem starts_manualLine (n : String) : strStarts "iface " (manualLine n) = true :=
  strStarts_append_lit _ (strStarts_append_lit _ (by decide))

theorem starts_addressLine (ip : String) :
    strStarts "    address " (addressLine ip) = true :=
  strStarts_append_lit _ (by decide)

theorem starts_netmaskLine (m : String) :
    strStarts "    netmask " (netmaskLine m) = true :=
  strStarts_append_lit _ (by decide)

theorem starts_gatewayLine (g : String) :
    strStarts "    gateway " (gatewayLine g) = true :=
  strStarts_append_lit _ (by decide)

theorem starts_dnsLine (s : String) :
    strStarts "    dns-" (dnsLine s) = true :=
  strStarts_append_lit _ (by decide)

theorem starts_wpaConfLine (n : String) :
    strStarts "    wpa-c" (wpaConfLine n) = true :=
  strStarts_append_lit _ (by decide)

theorem starts_mtuLine (m : Nat) : strStarts "    mtu " (mtuLine m) = true :=
  strStarts_append_lit _ (by decide)

theorem starts_routeUpLine (t v : String) :
    strStarts "    up " (routeUpLine t v) = true :=
  strStarts_append_lit _ (strStarts_append_lit _ (strStarts_append_lit _ (by decide)))

theorem starts_routeDownLine (t v : String) :
    strStarts "    down " (routeDownLine t v) = true :=
  strStarts_append_lit _ (strStarts_append_lit _ (strStarts_append_lit _ (by decide)))

theorem starts_ssidLine (s : String) :
    strStarts "    ssid=" (ssidLine s) = true :=
  strStarts_append_lit _ (strStarts_append_lit _ (by decide))

theorem starts_pskUnquoted (pw : String) :
    strStarts "    psk=" (pskUnquoted pw) = true :=
  strStarts_append_lit _ (by decide)

theorem starts_pskQuoted (pw : String) :
    strStarts "    psk=" (pskQuoted pw) = true :=
  strStarts_append_lit _ (strStarts_append_lit _ (by decide))

theorem starts_priorityLine (p : Int) :
    strStarts "    pr" (priorityLine p) = true :=
  strStarts_append_lit _ (by decide)

/-! Structural characterizations of the builder functions. -/

theorem ifaceModeLines_ok {ifn : String} {cfg : IfaceConfig} {mid : List String}
    (h : ifaceModeLines ifn cfg = .ok mid) :
    (cfg.dhcp4 = true ∧ mid = [dhcpLine ifn])
    ∨ (cfg.dhcp4 = false ∧ cfg.addresses = [] ∧ mid = [manualLine ifn])
    ∨ (cfg.dhcp4 = false ∧ cfg.addresses ≠ [] ∧ ∃ sl,
         staticAddrLines cfg.addresses = .ok sl ∧
         mid = [staticLine ifn] ++ sl ++ gatewayLines cfg ++ dnsLines cfg) := by
  unfold ifaceModeLines at h
  cases hd : cfg.dhcp4 with
  | true =>
    rw [hd] at h
    simp only [if_true] at h
    exact Or.inl ⟨rfl, (Except.ok.injEq _ _).mp h.symm⟩
  | false =>
    rw [hd] at h
    simp only [Bool.false_eq_true, if_false] at h
    cases he : cfg.addresses.isEmpty with
    | true =>
      rw [he] at h
      simp only [if_true] at h
      exact Or.inr (Or.inl ⟨rfl, List.isEmpty_iff.mp he,
        (Except.ok.injEq _ _).mp h.symm⟩)
    | false =>
      rw [he] at h
      simp only [Bool.false_eq_true, if_false] at h
      cases hs : staticAddrLines cfg.addresses with
      | error e => rw [hs] at h; exact absurd h (by simp)
      | ok sl =>
        rw [hs] at h
        refine Or.inr (Or.inr ⟨rfl, ?_, sl, rfl, ((Except.ok.injEq _ _).mp h).symm⟩)
        intro hnil
        rw [hnil] at he
        exact Bool.noConfusion he

theorem addInterfaceConfig_ok {ifn : String} {cfg : IfaceConfig} {w : Bool}
    {lines : List String} {wpa : Option String}
    (h : addInterfaceConfig ifn cfg w = .ok (lines, wpa)) :
    ∃ mid, ifaceModeLines ifn cfg = .ok mid
      ∧ lines = [autoLine ifn] ++ mid ++ (wifiPart ifn cfg w).1
          ++ mtuLines cfg ++ routesLines cfg ++ [""]
      ∧ wpa = (wifiPart ifn cfg w).2 := by
  unfold addInterfaceConfig at h
  cases hm : ifaceModeLines ifn cfg with
  | error e => rw [hm] at h; exact absurd h (by simp)
  | ok mid =>
    rw [hm] at h
    simp only [Except.ok.injEq, Prod.mk.injEq] at h
    exact ⟨mid, rfl, h.1.symm, h.2.symm⟩

theorem addInterfaceConfig_eq {ifn : String} {cfg : IfaceConfig} (w : Bool)
    {mid : List String} (h : ifaceModeLines ifn cfg = .ok mid) :
    addInterfaceConfig ifn cfg w
      = .ok ([autoLine ifn] ++ mid ++ (wifiPart ifn cfg w).1
               ++ mtuLines cfg ++ routesLines cfg ++ [""],
             (wifiPart ifn cfg w).2) := by
  unfold addInterfaceConfig
  rw [h]

theorem mem_gatewayLines {cfg : IfaceConfig} {l : String}
    (h : l ∈ gatewayLines cfg) : ∃ g, cfg.gateway4 = some g ∧ l = gatewayLine g := by
  unfold gatewayLines at h
  cases hg : cfg.gateway4 with
  | none => rw [hg] at h; simp at h
  | some g => rw [hg] at h; simp at h; exact ⟨g, rfl, h⟩

theorem mem_dnsLines {cfg : IfaceConfig} {l : String}
    (h : l ∈ dnsLines cfg) : ∃ s, l = dnsLine s := by
  cases hn : cfg.nameservers with
  | none => simp [dnsLines, hn] at h
  | some ns =>
    cases ha : ns.addresses with
    | none => simp [dnsLines, hn, ha] at h
    | some ads =>
      simp [dnsLines, hn, ha] at h
      exact ⟨_, h⟩

theorem mem_mtuLines {cfg : IfaceConfig} {l : String}
    (h : l ∈ mtuLines cfg) : ∃ m, l = mtuLine m := by
  unfold mtuLines at h
  cases hm : cfg.mtu with
  | none => rw [hm] at h; simp at h
  | some m => rw [hm] at h; simp at h; exact ⟨m, h⟩

theorem mem_wifiPart {ifn : String} {cfg : IfaceConfig} {w : Bool} {l : String}
    (h : l ∈ (wifiPart ifn cfg w).1) : l = wpaDriverLine ∨ l = wpaConfLine ifn := by
  unfold wifiPart at h
  cases w with
  | false => simp at h
  | true =>
    cases ha : cfg.accessPoints with
    | none => rw [ha] at h; simp at h
    | some aps => rw [ha] at h; simpa using h

theorem mem_routeLinesList {rs : List Route} {l : String}
    (h : l ∈ routeLinesList rs) :
    (∃ t v, l = routeUpLine t v) ∨ (∃ t v, l = routeDownLine t v) := by
  induction rs with
  | nil => simp [routeLinesList] at h
  | cons r rest ih =>
    rw [routeLinesList] at h
    rcases List.mem_append.mp h with hh | hh
    · revert hh
      cases r.toDest with
      | none => intro hh; simp at hh
      | some t =>
        cases r.via with
        | none => intro hh; simp at hh
        | some v =>
          intro hh
          rcases List.mem_cons.mp hh with he | he
          · exact Or.inl ⟨t, v, he⟩
          · simp at he
            exact Or.inr ⟨t, v, he⟩
    · exact ih hh

theorem mem_routesLines {cfg : IfaceConfig} {l : String}
    (h : l ∈ routesLines cfg) :
    (∃ t v, l = routeUpLine t v) ∨ (∃ t v, l = routeDownLine t v) := by
  unfold routesLines at h
  cases hr : cfg.routes with
  | none => rw [hr] at h; simp at h
  | some rs => rw [hr] at h; exact mem_routeLinesList h

theorem mem_addrLinesOne {addr : String} {ls : List String}
    (h : addrLinesOne addr = .ok ls) :
    ∀ l ∈ ls, (∃ ip, l = addressLine ip) ∨ (∃ m, l = netmaskLine m) := by
  intro l hl
  unfold addrLinesOne at h
  by_cases hc : addr.data.contains '/'
  · rw [if_pos hc] at h
    rcases hsp : splitOnSlash addr with _ | ⟨ip, _ | ⟨pl, _ | ⟨x, xs⟩⟩⟩
    · rw [hsp] at h
      simp at h
    · rw [hsp] at h
      simp at h
    · rw [hsp] at h
      have h2 : (match parseNat pl with
          | some n =>
            if n ≤ 32 then Except.ok [addressLine ip, netmaskLine (cidrToNetmask n)]
            else Except.error "negative shift count"
          | none => Except.error ("invalid literal for int() with base 10: " ++ pl))
          = Except.ok ls := h
      clear h
      rename' h2 => h
      cases hn : parseNat pl with
      | none =>
        rw [hn] at h
        simp at h
      | some n =>
        rw [hn] at h
        have h3 : (if n ≤ 32 then
              Except.ok [addressLine ip, netmaskLine (cidrToNetmask n)]
            else Except.error "negative shift count") = Except.ok ls := h
        clear h
        rename' h3 => h
        by_cases hle : n ≤ 32
        · rw [if_pos hle] at h
          simp only [Except.ok.injEq] at h
          rw [← h] at hl
          rcases List.mem_cons.mp hl with he | he
          · exact Or.inl ⟨_, he⟩
          · simp at he
            exact Or.inr ⟨_, he⟩
        · rw [if_neg hle] at h
          simp at h
    · rw [hsp] at h
      simp at h
  · rw [if_neg hc] at h
    simp only [Except.ok.injEq] at h
    rw [← h] at hl
    simp at hl
    exact Or.inl ⟨_, hl⟩

theorem mem_staticAddrLines :
    ∀ {as sl : List String}, staticAddrLines as = .ok sl →
    ∀ l ∈ sl, (∃ ip, l = addressLine ip) ∨ (∃ m, l = netmaskLine m) := by
  intro as
  induction as with
  | nil =>
    intro sl h l hl
    rw [staticAddrLines] at h
    simp only [Except.ok.injEq] at h
    rw [← h] at hl
    simp at hl
  | cons a rest ih =>
    intro sl h l hl
    rw [staticAddrLines] at h
    cases ha : addrLinesOne a with
    | error e =>
      rw [ha] at h
      exact absurd h (by simp)
    | ok ls =>
      rw [ha] at h
      cases hr : staticAddrLines rest with
      | error e =>
        rw [hr] at h
        exact absurd h (by simp)
      | ok tl =>
        rw [hr] at h
        simp only [Except.ok.injEq] at h
        rw [← h] at hl
        rcases List.mem_append.mp hl with hh | hh
        · exact mem_addrLinesOne ha l hh
        · exact ih hr l hh

/-- From contradictory boolean facts anything follows. -/
theorem bool_absurd {b : Bool} {C : Prop} (h1 : b = true) (h2 : b = false) : C := by
  rw [h1] at h2
  exact Bool.noConfusion h2

theorem data_length_append (a b : String) :
    (a ++ b).data.length = a.data.length + b.data.length := by
  rw [String.data_append, List.length_append]

theorem dhcpLine_ne_staticLine (n : String) : dhcpLine n ≠ staticLine n := by
  apply ne_of_data_length
  rw [dhcpLine, staticLine, data_length_append, data_length_append,
    data_length_append, data_length_append]
  have h1 : " inet dhcp".data.length = 10 := by decide
  have h2 : " inet static".data.length = 12 := by decide
  omega

theorem dhcpLine_ne_manualLine (n : String) : dhcpLine n ≠ manualLine n := by
  apply ne_of_data_length
  rw [dhcpLine, manualLine, data_length_append, data_length_append,
    data_length_append, data_length_append]
  have h1 : " inet dhcp".data.length = 10 := by decide
  have h2 : " inet manual".data.length = 12 := by decide
  omega

theorem staticLine_ne_manualLine (n : String) : staticLine n ≠ manualLine n := by
  intro h
  have hd : (staticLine n).data = (manualLine n).data := by rw [h]
  rw [staticLine, manualLine, String.data_append, String.data_append,
    String.data_append, String.data_append] at hd
  exact absurd (List.append_cancel_left hd) (by decide)

theorem starts_wifiPart {ifn : String} {cfg : IfaceConfig} {w : Bool} {l : String}
    (h : l ∈ (wifiPart ifn cfg w).1) : strStarts "    wpa-" l = true := by
  rcases mem_wifiPart h with he | he
  · rw [he]
    decide
  · rw [he]
    exact strStarts_append_lit _ (by decide)

theorem starts_mtuPart {cfg : IfaceConfig} {l : String}
    (h : l ∈ mtuLines cfg) : strStarts "    mtu " l = true := by
  rcases mem_mtuLines h with ⟨m, he⟩
  rw [he]
  exact starts_mtuLine m

theorem starts_routesPart {cfg : IfaceConfig} {l : String}
    (h : l ∈ routesLines cfg) :
    strStarts "    up " l = true ∨ strStarts "    down " l = true := by
  rcases mem_routesLines h with ⟨t, v, he⟩ | ⟨t, v, he⟩
  · rw [he]
    exact Or.inl (starts_routeUpLine t v)
  · rw [he]
    exact Or.inr (starts_routeDownLine t v)

/-- Every line after the addressing section of an interface block is the
empty separator or carries one of four distinctive indented prefixes. -/
theorem tailShapes {ifn : String} {cfg : IfaceConfig} {w : Bool} {l : String}
    (h : l ∈ (wifiPart ifn cfg w).1 ++ mtuLines cfg ++ routesLines cfg ++ [""]) :
    l = "" ∨ strStarts "    wpa-" l = true ∨ strStarts "    mtu " l = true
    ∨ strStarts "    up " l = true ∨ strStarts "    down " l = true := by
  rcases List.mem_append.mp h with h1 | h1
  rcases List.mem_append.mp h1 with h2 | h2
  rcases List.mem_append.mp h2 with h3 | h3
  · rcases mem_wifiPart h3 with he | he
    · rw [he]
      exact Or.inr (Or.inl (by decide))
    · rw [he]
      exact Or.inr (Or.inl (strStarts_append_lit _ (by decide)))
  · rcases mem_mtuLines h3 with ⟨m, he⟩
    rw [he]
    exact Or.inr (Or.inr (Or.inl (starts_mtuLine m)))
  · rcases mem_routesLines h2 with ⟨t, v, he⟩ | ⟨t, v, he⟩
    · rw [he]
      exact Or.inr (Or.inr (Or.inr (Or.inl (starts_routeUpLine t v))))
    · rw [he]
      exact Or.inr (Or.inr (Or.inr (Or.inr (starts_routeDownLine t v))))
  · simp at h1
    exact Or.inl h1

/-! Claim theorems. -/

/-- C1: for every interface spec with useDhcp4 true (also when
staticAddresses is non-empty) the block carries the single DHCP iface
line and no static iface, address or netmask lines; with useDhcp4 false
and non-empty staticAddresses it carries the static iface line and
neither the DHCP nor the manual one; with useDhcp4 false and no static
addresses it carries the manual iface line only. -/
theorem C1_addressing_precedence (ifn : String) (cfg : IfaceConfig) (w : Bool)
    (lines : List String) (wpa : Option String)
    (h : addInterfaceConfig ifn cfg w = .ok (lines, wpa)) :
    (cfg.dhcp4 = true → cfg.addresses ≠ [] →
       dhcpLine ifn ∈ lines
       ∧ (∀ l ∈ lines, strStarts "iface " l = true → l = dhcpLine ifn)
       ∧ (∀ l ∈ lines, strStarts "    address " l = false
            ∧ strStarts "    netmask " l = false))
    ∧ (cfg.dhcp4 = false → cfg.addresses ≠ [] →
       staticLine ifn ∈ lines ∧ dhcpLine ifn ∉ lines ∧ manualLine ifn ∉ lines)
    ∧ (cfg.dhcp4 = false → cfg.addresses = [] →
       manualLine ifn ∈ lines ∧ dhcpLine ifn ∉ lines ∧ staticLine ifn ∉ lines) := by
  obtain ⟨mid, hm, hline, hwpa⟩ := addInterfaceConfig_ok h
  rcases ifaceModeLines_ok hm with ⟨hd, hmid⟩ | ⟨hd, hnil, hmid⟩ |
    ⟨hd, hnn, sl, hsl, hmid⟩
  · subst hmid
    subst hline
    refine ⟨fun _ _ => ⟨by simp, ?_, ?_⟩,
      fun hf _ => bool_absurd hd hf, fun hf _ => bool_absurd hd hf⟩
    · intro l hl hif
      simp only [List.mem_append, List.mem_singleton, or_assoc] at hl
      rcases hl with hl | hl | hl | hl | hl | hl
      · rw [hl] at hif
        exact bool_absurd hif (starts_excl (by decide) (by decide) (starts_autoLine ifn))
      · exact hl
      · exact bool_absurd hif (starts_excl (by decide) (by decide) (starts_wifiPart hl))
      · exact bool_absurd hif (starts_excl (by decide) (by decide) (starts_mtuPart hl))
      · rcases starts_routesPart hl with hs | hs
        · exact bool_absurd hif (starts_excl (by decide) (by decide) hs)
        · exact bool_absurd hif (starts_excl (by decide) (by decide) hs)
      · rw [hl] at hif
        exact bool_absurd hif (by decide)
    · intro l hl
      simp only [List.mem_append, List.mem_singleton, or_assoc] at hl
      rcases hl with hl | hl | hl | hl | hl | hl
      · rw [hl]
        exact ⟨starts_excl (by decide) (by decide) (starts_autoLine ifn),
          starts_excl (by decide) (by decide) (starts_autoLine ifn)⟩
      · rw [hl]
        exact ⟨starts_excl (by decide) (by decide) (starts_dhcpLine ifn),
          starts_excl (by decide) (by decide) (starts_dhcpLine ifn)⟩
      · exact ⟨starts_excl (by decide) (by decide) (starts_wifiPart hl),
          starts_excl (by decide) (by decide) (starts_wifiPart hl)⟩
      · exact ⟨starts_excl (by decide) (by decide) (starts_mtuPart hl),
          starts_excl (by decide) (by decide) (starts_mtuPart hl)⟩
      · rcases starts_routesPart hl with hs | hs
        · exact ⟨starts_excl (by decide) (by decide) hs,
            starts_excl (by decide) (by decide) hs⟩
        · exact ⟨starts_excl (by decide) (by decide) hs,
            starts_excl (by decide) (by decide) hs⟩
      · rw [hl]
        exact ⟨by decide, by decide⟩
  · subst hmid
    subst hline
    refine ⟨fun hf => bool_absurd hf hd, fun _ hne => absurd hnil hne,
      fun _ _ => ⟨by simp, ?_, ?_⟩⟩
    · intro hmem
      simp only [List.mem_append, List.mem_singleton, or_assoc] at hmem
      rcases hmem with hl | hl | hl | hl | hl | hl
      · exact absurd hl (ne_of_starts (starts_dhcpLine ifn)
          (starts_excl (by decide) (by decide) (starts_autoLine ifn)))
      · exact absurd hl (dhcpLine_ne_manualLine ifn)
      · exact absurd rfl (ne_of_starts (starts_dhcpLine ifn)
          (starts_excl (by decide) (by decide) (starts_wifiPart hl)))
      · exact absurd rfl (ne_of_starts (starts_dhcpLine ifn)
          (starts_excl (by decide) (by decide) (starts_mtuPart hl)))
      · rcases starts_routesPart hl with hs | hs
        · exact absurd rfl (ne_of_starts (starts_dhcpLine ifn)
            (starts_excl (by decide) (by decide) hs))
        · exact absurd rfl (ne_of_starts (starts_dhcpLine ifn)
            (starts_excl (by decide) (by decide) hs))
      · exact absurd hl (ne_of_starts (starts_dhcpLine ifn) (by decide))
    · intro hmem
      simp only [List.mem_append, List.mem_singleton, or_assoc] at hmem
      rcases hmem with hl | hl | hl | hl | hl | hl
      · exact absurd hl (ne_of_starts (starts_staticLine ifn)
          (starts_excl (by decide) (by decide) (starts_autoLine ifn)))
      · exact absurd hl.symm (staticLine_ne_manualLine ifn).symm
      · exact absurd rfl (ne_of_starts (starts_staticLine ifn)
          (starts_excl (by decide) (by decide) (starts_wifiPart hl)))
      · exact absurd rfl (ne_of_starts (starts_staticLine ifn)
          (starts_excl (by decide) (by decide) (starts_mtuPart hl)))
      · rcases starts_routesPart hl with hs | hs
        · exact absurd rfl (ne_of_starts (starts_staticLine ifn)
            (starts_excl (by decide) (by decide) hs))
        · exact absurd rfl (ne_of_starts (starts_staticLine ifn)
            (starts_excl (by decide) (by decide) hs))
      · exact absurd hl (ne_of_starts (starts_staticLine ifn) (by decide))
  · subst hmid
    subst hline
    refine ⟨fun hf => bool_absurd hf hd, fun _ _ => ⟨by simp, ?_, ?_⟩,
      fun _ hnil => absurd hnil hnn⟩
    · intro hmem
      simp only [List.mem_append, List.mem_singleton, or_assoc] at hmem
      rcases hmem with hl | hl | hl | hl | hl | hl | hl | hl | hl
      · exact absurd hl (ne_of_starts (starts_dhcpLine ifn)
          (starts_excl (by decide) (by decide) (starts_autoLine ifn)))
      · exact absurd hl (dhcpLine_ne_staticLine ifn)
      · rcases mem_staticAddrLines hsl _ hl with ⟨ip, he⟩ | ⟨m, he⟩
        · exact absurd he (ne_of_starts (starts_dhcpLine ifn)
            (starts_excl (by decide) (by decide) (starts_addressLine ip)))
        · exact absurd he (ne_of_starts (starts_dhcpLine ifn)
            (starts_excl (by decide) (by decide) (starts_netmaskLine m)))
      · rcases mem_gatewayLines hl with ⟨g, _, he⟩
        exact absurd he (ne_of_starts (starts_dhcpLine ifn)
          (starts_excl (by decide) (by decide) (starts_gatewayLine g)))
      · rcases mem_dnsLines hl with ⟨s, he⟩
        exact absurd he (ne_of_starts (starts_dhcpLine ifn)
          (starts_excl (by decide) (by decide) (starts_dnsLine s)))
      · exact absurd rfl (ne_of_starts (starts_dhcpLine ifn)
          (starts_excl (by decide) (by decide) (starts_wifiPart hl)))
      · exact absurd rfl (ne_of_starts (starts_dhcpLine ifn)
          (starts_excl (by decide) (by decide) (starts_mtuPart hl)))
      · rcases starts_routesPart hl with hs | hs
        · exact absurd rfl (ne_of_starts (starts_dhcpLine ifn)
            (starts_excl (by decide) (by decide) hs))
        · exact absurd rfl (ne_of_starts (starts_dhcpLine ifn)
            (starts_excl (by decide) (by decide) hs))
      · exact absurd hl (ne_of_starts (starts_dhcpLine ifn) (by decide))
    · intro hmem
      simp only [List.mem_append, List.mem_singleton, or_assoc] at hmem
      rcases hmem with hl | hl | hl | hl | hl | hl | hl | hl | hl
      · exact absurd hl (ne_of_starts (starts_manualLine ifn)
          (starts_excl (by decide) (by decide) (starts_autoLine ifn)))
      · exact absurd hl.symm (staticLine_ne_manualLine ifn)
      · rcases mem_staticAddrLines hsl _ hl with ⟨ip, he⟩ | ⟨m, he⟩
        · exact absurd he (ne_of_starts (starts_manualLine ifn)
            (starts_excl (by decide) (by decide) (starts_addressLine ip)))
        · exact absurd he (ne_of_starts (starts_manualLine ifn)
            (starts_excl (by decide) (by decide) (starts_netmaskLine m)))
      · rcases mem_gatewayLines hl with ⟨g, _, he⟩
        exact absurd he (ne_of_starts (starts_manualLine ifn)
          (starts_excl (by decide) (by decide) (starts_gatewayLine g)))
      · rcases mem_dnsLines hl with ⟨s, he⟩
        exact absurd he (ne_of_starts (starts_manualLine ifn)
          (starts_excl (by decide) (by decide) (starts_dnsLine s)))
      · exact absurd rfl (ne_of_starts (starts_manualLine ifn)
          (starts_excl (by decide) (by decide) (starts_wifiPart hl)))
      · exact absurd rfl (ne_of_starts (starts_manualLine ifn)
          (starts_excl (by decide) (by decide) (starts_mtuPart hl)))
      · rcases starts_routesPart hl with hs | hs
        · exact absurd rfl (ne_of_starts (starts_manualLine ifn)
            (starts_excl (by decide) (by decide) hs))
        · exact absurd rfl (ne_of_starts (starts_manualLine ifn)
            (starts_excl (by decide) (by decide) hs))
      · exact absurd hl (ne_of_starts (starts_manualLine ifn) (by decide))

/-- Witness for C1: a concrete spec with dhcp4 and a static address. -/
theorem C1_addressing_precedence_witness :
    dhcpLine "eth1" ∈ [autoLine "eth1", dhcpLine "eth1", ""] :=
  ((C1_addressing_precedence "eth1"
      { dhcp4 := true, addresses := ["10.0.0.1/24"] } false
      [autoLine "eth1", dhcpLine "eth1", ""] none rfl).1 rfl (by decide)).1

/-- C3: the CIDR-to-netmask conversion computes the claimed mask and
formats it as dot-separated decimal octets most significant first; the
four stated example prefixes give the stated masks. -/
theorem C3_cidr_netmask :
    (∀ p, p ≤ 32 → cidrToNetmask p = specNetmask p)
    ∧ cidrToNetmask 24 = "255.255.255.0"
    ∧ cidrToNetmask 16 = "255.255.0.0"
    ∧ cidrToNetmask 32 = "255.255.255.255"
    ∧ cidrToNetmask 0 = "0.0.0.0" := by
  refine ⟨?_, rfl, rfl, rfl, rfl⟩
  intro p hp
  interval_cases p <;> rfl

/-- Witness for C3 at prefix length 8. -/
theorem C3_cidr_netmask_witness : cidrToNetmask 8 = specNetmask 8 :=
  C3_cidr_netmask.1 8 (by decide)

theorem routeLinesList_eq_spec (rs : List Route) :
    routeLinesList rs = routeSpecLines rs := by
  induction rs with
  | nil => rfl
  | cons r rest ih =>
    obtain ⟨rt, rv⟩ := r
    cases rt <;> cases rv <;>
      simp [routeLinesList, routeSpecLines, List.filterMap_cons, ih]

/-- C9: the route loop behaves as claimed: every route with both
endpoints produces exactly its up line immediately followed by its down
line, in the original order, routes missing an endpoint produce
nothing; and those lines sit inside the interface block. -/
theorem C9_routes (ifn : String) (cfg : IfaceConfig) (w : Bool)
    (rs : List Route) (lines : List String) (wpa : Option String)
    (h : addInterfaceConfig ifn cfg w = .ok (lines, wpa))
    (hr : cfg.routes = some rs) :
    routeLinesList rs = routeSpecLines rs ∧ routeLinesList rs <:+: lines := by
  obtain ⟨mid, hm, hline, hwpa⟩ := addInterfaceConfig_ok h
  refine ⟨routeLinesList_eq_spec rs, ?_⟩
  rw [hline]
  refine ⟨[autoLine ifn] ++ mid ++ (wifiPart ifn cfg w).1 ++ mtuLines cfg,
    [""], ?_⟩
  simp [routesLines, hr, List.append_assoc]

/-- Witness for C9: one complete route followed by one missing via. -/
theorem C9_routes_witness :
    routeLinesList [⟨some "10.1.0.0", some "10.0.0.1"⟩, ⟨some "10.2.0.0", none⟩]
      = routeSpecLines
          [⟨some "10.1.0.0", some "10.0.0.1"⟩, ⟨some "10.2.0.0", none⟩] :=
  (C9_routes "eth2"
    { routes := some [⟨some "10.1.0.0", some "10.0.0.1"⟩,
        ⟨some "10.2.0.0", none⟩] } false _
    [autoLine "eth2", manualLine "eth2",
      routeUpLine "10.1.0.0" "10.0.0.1", routeDownLine "10.1.0.0" "10.0.0.1", ""]
    none rfl rfl).1

/-! Lemmas about the wpa_supplicant block parts. -/

theorem mem_pskLines {ap : APConfig} {l : String} (h : l ∈ pskLines ap) :
    ∃ pw, ap.password = some pw ∧ (l = pskUnquoted pw ∨ l = pskQuoted pw) := by
  cases hp : ap.password with
  | none => simp [pskLines, hp] at h
  | some pw =>
    refine ⟨pw, rfl, ?_⟩
    by_cases hpre : isPreHashedPsk pw
    · simp [pskLines, hp, hpre] at h
      exact Or.inl h
    · simp [pskLines, hp, hpre] at h
      exact Or.inr h

theorem mem_hiddenLines {ap : APConfig} {l : String} (h : l ∈ hiddenLines ap) :
    l = "    scan_ssid=1" := by
  cases hh : ap.hidden
  · simp [hiddenLines, hh] at h
  · simp [hiddenLines, hh] at h
    exact h

theorem mem_prioLines {ap : APConfig} {l : String} (h : l ∈ prioLines ap) :
    ∃ p, l = priorityLine p := by
  cases hp : ap.priority with
  | none => simp [prioLines, hp] at h
  | some p =>
    simp [prioLines, hp] at h
    exact ⟨p, h⟩

theorem mem_modeLines {ap : APConfig} {l : String} (h : l ∈ modeLines ap) :
    l = "    mode=1" := by
  by_cases hm : ap.mode.getD "infrastructure" == "adhoc"
  · simp only [modeLines, hm, if_true] at h
    simpa using h
  · simp only [modeLines, hm, if_false] at h
    simp at h

theorem mem_authLines {ap : APConfig} {l : String} (h : l ∈ authLines ap) :
    l = "    key_mgmt=NONE" := by
  cases ha : ap.auth with
  | none => simp [authLines, ha] at h
  | some a =>
    by_cases ho : a == "open"
    · simp only [authLines, ha, ho, if_true] at h
      simpa using h
    · simp only [authLines, ha, ho, if_false] at h
      simp at h

theorem isPreHashedPsk_iff {pw : String} :
    isPreHashedPsk pw = true ↔ (pw.length = 64 ∧ pw.data.all isHexChar = true) := by
  unfold isPreHashedPsk
  rw [Bool.and_eq_true, beq_iff_eq]

theorem pskUnquoted_ne_pskQuoted (pw : String) : pskUnquoted pw ≠ pskQuoted pw := by
  apply ne_of_data_length
  rw [pskUnquoted, pskQuoted, data_length_append, data_length_append,
    data_length_append]
  have h1 : "    psk=".data.length = 8 := by decide
  have h2 : "    psk=\"".data.length = 9 := by decide
  have h3 : "\"".data.length = 1 := by decide
  omega

/-- C4: with a password present, the access-point block carries the
unquoted psk line exactly when the password is 64 characters drawn from
the hexadecimal alphabet of either case, and the quoted psk line
otherwise. -/
theorem C4_psk_heuristic (ssid pw : String) (ap : APConfig)
    (hpw : ap.password = some pw) :
    ((pw.length = 64 ∧ pw.data.all isHexChar = true) →
       pskUnquoted pw ∈ apBlock ssid ap ∧ pskQuoted pw ∉ apBlock ssid ap)
    ∧ (¬ (pw.length = 64 ∧ pw.data.all isHexChar = true) →
       pskQuoted pw ∈ apBlock ssid ap ∧ pskUnquoted pw ∉ apBlock ssid ap) := by
  constructor
  · intro hc
    have hpre : isPreHashedPsk pw = true := isPreHashedPsk_iff.mpr hc
    have hps : pskLines ap = [pskUnquoted pw] := by simp [pskLines, hpw, hpre]
    constructor
    · simp [apBlock, hps]
    · intro hmem
      unfold apBlock at hmem
      rw [hps] at hmem
      simp only [List.mem_append, List.mem_cons, List.mem_singleton, or_assoc,
        List.not_mem_nil, or_false] at hmem
      rcases hmem with hl | hl | hl | hl | hl | hl | hl | hl
      · exact absurd hl (ne_of_starts (starts_pskQuoted pw) (by decide))
      · exact absurd hl (ne_of_starts (starts_pskQuoted pw)
          (starts_excl (by decide) (by decide) (starts_ssidLine ssid)))
      · exact absurd hl.symm (pskUnquoted_ne_pskQuoted pw)
      · exact absurd (mem_hiddenLines hl)
          (ne_of_starts (starts_pskQuoted pw) (by decide))
      · rcases mem_prioLines hl with ⟨p, he⟩
        exact absurd he (ne_of_starts (starts_pskQuoted pw)
          (starts_excl (by decide) (by decide) (starts_priorityLine p)))
      · exact absurd (mem_modeLines hl)
          (ne_of_starts (starts_pskQuoted pw) (by decide))
      · exact absurd (mem_authLines hl)
          (ne_of_starts (starts_pskQuoted pw) (by decide))
      · rcases hl with hl | hl
        · exact absurd hl (ne_of_starts (starts_pskQuoted pw) (by decide))
        · exact absurd hl (ne_of_starts (starts_pskQuoted pw) (by decide))
  · intro hc
    have hpre : isPreHashedPsk pw = false :=
      Bool.eq_false_iff.mpr (fun hh => hc (isPreHashedPsk_iff.mp hh))
    have hps : pskLines ap = [pskQuoted pw] := by simp [pskLines, hpw, hpre]
    constructor
    · simp [apBlock, hps]
    · intro hmem
      unfold apBlock at hmem
      rw [hps] at hmem
      simp only [List.mem_append, List.mem_cons, List.mem_singleton, or_assoc,
        List.not_mem_nil, or_false] at hmem
      rcases hmem with hl | hl | hl | hl | hl | hl | hl | hl
      · exact absurd hl (ne_of_starts (starts_pskUnquoted pw) (by decide))
      · exact absurd hl (ne_of_starts (starts_pskUnquoted pw)
          (starts_excl (by decide) (by decide) (starts_ssidLine ssid)))
      · exact absurd hl (pskUnquoted_ne_pskQuoted pw)
      · exact absurd (mem_hiddenLines hl)
          (ne_of_starts (starts_pskUnquoted pw) (by decide))
      · rcases mem_prioLines hl with ⟨p, he⟩
        exact absurd he (ne_of_starts (starts_pskUnquoted pw)
          (starts_excl (by decide) (by decide) (starts_priorityLine p)))
      · exact absurd (mem_modeLines hl)
          (ne_of_starts (starts_pskUnquoted pw) (by decide))
      · exact absurd (mem_authLines hl)
          (ne_of_starts (starts_pskUnquoted pw) (by decide))
      · rcases hl with hl | hl
        · exact absurd hl (ne_of_starts (starts_pskUnquoted pw) (by decide))
        · exact absurd hl (ne_of_starts (starts_pskUnquoted pw) (by decide))

/-- Witness for C4: a 63-character all-hex password is emitted quoted. -/
theorem C4_psk_heuristic_witness :
    pskQuoted (String.mk (List.replicate 63 'a'))
      ∈ apBlock "Home" { password := some (String.mk (List.replicate 63 'a')) } :=
  ((C4_psk_heuristic "Home" (String.mk (List.replicate 63 'a'))
      { password := some (String.mk (List.replicate 63 'a')) } rfl).2
    (by decide)).1

/-- C10: an accessPoints key bound to an empty mapping still triggers
wireless handling: the registered credential document is only the
preamble directive and its trailing blank line, and both wpa directive
lines appear in the interface block. -/
theorem C10_empty_access_points (ifn : String) (cfg : IfaceConfig)
    (lines : List String) (wpa : Option String)
    (hap : cfg.accessPoints = some [])
    (h : addInterfaceConfig ifn cfg true = .ok (lines, wpa)) :
    wpa = some "update_config=1\n"
    ∧ wpaDriverLine ∈ lines ∧ wpaConfLine ifn ∈ lines := by
  obtain ⟨mid, hm, hline, hwpa⟩ := addInterfaceConfig_ok h
  have h1 : (wifiPart ifn cfg true).1 = [wpaDriverLine, wpaConfLine ifn] := by
    simp [wifiPart, hap]
  have h2 : (wifiPart ifn cfg true).2
      = some (generateWpaSupplicantConfig []) := by
    simp [wifiPart, hap]
  refine ⟨?_, ?_, ?_⟩
  · rw [hwpa, h2]
    rfl
  · rw [hline, h1]
    simp
  · rw [hline, h1]
    simp

/-- Witness for C10 at a concrete spec with an empty access-point map. -/
theorem C10_empty_access_points_witness :
    wpaDriverLine ∈ [autoLine "wlan0", manualLine "wlan0",
      wpaDriverLine, wpaConfLine "wlan0", ""] :=
  (C10_empty_access_points "wlan0" { accessPoints := some [] } _ _ rfl rfl).2.1

/-- In the DHCP and manual addressing modes, every line of the block
either carries one of the non-static leading literals or is the blank
separator. -/
theorem lines_shapes_nonstatic {ifn : String} {cfg : IfaceConfig} {w : Bool}
    {l : String} {mid : List String}
    (hmid : mid = [dhcpLine ifn] ∨ mid = [manualLine ifn])
    (hl : l ∈ [autoLine ifn] ++ mid ++ (wifiPart ifn cfg w).1
            ++ mtuLines cfg ++ routesLines cfg ++ [""]) :
    strStarts "auto " l = true ∨ strStarts "iface " l = true ∨ l = ""
    ∨ strStarts "    wpa-" l = true ∨ strStarts "    mtu " l = true
    ∨ strStarts "    up " l = true ∨ strStarts "    down " l = true := by
  simp only [List.mem_append, List.mem_singleton, or_assoc] at hl
  rcases hl with hl | hl | hl | hl | hl | hl
  · rw [hl]
    exact Or.inl (starts_autoLine ifn)
  · rcases hmid with hm | hm <;> rw [hm] at hl <;> simp at hl <;> rw [hl]
    · exact Or.inr (Or.inl (starts_dhcpLine ifn))
    · exact Or.inr (Or.inl (starts_manualLine ifn))
  · exact Or.inr (Or.inr (Or.inr (Or.inl (starts_wifiPart hl))))
  · exact Or.inr (Or.inr (Or.inr (Or.inr (Or.inl (starts_mtuPart hl)))))
  · rcases starts_routesPart hl with hs | hs
    · exact Or.inr (Or.inr (Or.inr (Or.inr (Or.inr (Or.inl hs)))))
    · exact Or.inr (Or.inr (Or.inr (Or.inr (Or.inr (Or.inr hs)))))
  · exact Or.inr (Or.inr (Or.inl hl))

/-- Counterexample to C6: with gateway4 present but DHCP addressing the
block carries no gateway line at all. -/
theorem C6_counterexample :
    addInterfaceConfig "eth1"
        { dhcp4 := true, gateway4 := some "10.0.0.254" } false
      = .ok ([autoLine "eth1", dhcpLine "eth1", ""], none)
    ∧ gatewayLine "10.0.0.254" ∉ [autoLine "eth1", dhcpLine "eth1", ""] := by
  exact ⟨rfl, by decide⟩

/-- C6 amended: the gateway line is emitted exactly in static mode: a
present gateway4 with static addressing gives the line, while in DHCP or
manual mode no gateway line appears even when gateway4 is present. -/
theorem C6_gateway_static_only (ifn : String) (cfg : IfaceConfig) (w : Bool)
    (lines : List String) (wpa : Option String)
    (h : addInterfaceConfig ifn cfg w = .ok (lines, wpa)) :
    (∀ g, cfg.gateway4 = some g → cfg.dhcp4 = false → cfg.addresses ≠ [] →
       gatewayLine g ∈ lines)
    ∧ (cfg.dhcp4 = true ∨ cfg.addresses = [] →
       ∀ l ∈ lines, strStarts "    gateway " l = false) := by
  obtain ⟨mid, hm, hline, hwpa⟩ := addInterfaceConfig_ok h
  rcases ifaceModeLines_ok hm with ⟨hd, hmid⟩ | ⟨hd, hnil, hmid⟩ |
    ⟨hd, hnn, sl, hsl, hmid⟩
  · refine ⟨fun g _ hf _ => bool_absurd hd hf, fun _ l hl => ?_⟩
    rw [hline, hmid] at hl
    rcases lines_shapes_nonstatic (Or.inl rfl) hl with
      hs | hs | hs | hs | hs | hs | hs
    · exact starts_excl (by decide) (by decide) hs
    · exact starts_excl (by decide) (by decide) hs
    · rw [hs]
      decide
    · exact starts_excl (by decide) (by decide) hs
    · exact starts_excl (by decide) (by decide) hs
    · exact starts_excl (by decide) (by decide) hs
    · exact starts_excl (by decide) (by decide) hs
  · refine ⟨fun g _ _ hne => absurd hnil hne, fun _ l hl => ?_⟩
    rw [hline, hmid] at hl
    rcases lines_shapes_nonstatic (Or.inr rfl) hl with
      hs | hs | hs | hs | hs | hs | hs
    · exact starts_excl (by decide) (by decide) hs
    · exact starts_excl (by decide) (by decide) hs
    · rw [hs]
      decide
    · exact starts_excl (by decide) (by decide) hs
    · exact starts_excl (by decide) (by decide) hs
    · exact starts_excl (by decide) (by decide) hs
    · exact starts_excl (by decide) (by decide) hs
  · refine ⟨fun g hgw _ _ => ?_, fun hor => ?_⟩
    · have hg : gatewayLines cfg = [gatewayLine g] := by
        simp [gatewayLines, hgw]
      rw [hline, hmid, hg]
      simp
    · rcases hor with hf | hnil
      · exact bool_absurd hf hd
      · exact absurd hnil hnn

/-- Witness for C6 amended at a concrete static spec. -/
theorem C6_gateway_static_only_witness :
    gatewayLine "10.0.0.254" ∈ [autoLine "eth1", staticLine "eth1",
      addressLine "10.0.0.1", netmaskLine "255.255.255.0",
      gatewayLine "10.0.0.254", ""] :=
  (C6_gateway_static_only "eth1"
      { addresses := ["10.0.0.1/24"], gateway4 := some "10.0.0.254" } false
      [autoLine "eth1", staticLine "eth1", addressLine "10.0.0.1",
        netmaskLine "255.255.255.0", gatewayLine "10.0.0.254", ""]
      none rfl).1 "10.0.0.254" rfl rfl (by decide)

/-- Counterexample to C7: with nameservers present but DHCP addressing
the block carries no dns-nameservers line at all. -/
theorem C7_counterexample :
    addInterfaceConfig "eth1"
        { dhcp4 := true,
          nameservers := some { addresses := some ["8.8.8.8"] } } false
      = .ok ([autoLine "eth1", dhcpLine "eth1", ""], none)
    ∧ dnsLine "8.8.8.8" ∉ [autoLine "eth1", dhcpLine "eth1", ""] := by
  exact ⟨rfl, by decide⟩

/-- C7 amended: the dns-nameservers line (addresses joined with single
spaces) is emitted exactly in static mode; in DHCP or manual mode no
dns-nameservers line appears even when nameservers.addresses is
present. -/
theorem C7_dns_static_only (ifn : String) (cfg : IfaceConfig) (w : Bool)
    (lines : List String) (wpa : Option String)
    (h : addInterfaceConfig ifn cfg w = .ok (lines, wpa)) :
    (∀ ns ads, cfg.nameservers = some ns → ns.addresses = some ads →
       cfg.dhcp4 = false → cfg.addresses ≠ [] →
       dnsLine (String.intercalate " " ads) ∈ lines)
    ∧ (cfg.dhcp4 = true ∨ cfg.addresses = [] →
       ∀ l ∈ lines, strStarts "    dns-" l = false) := by
  obtain ⟨mid, hm, hline, hwpa⟩ := addInterfaceConfig_ok h
  rcases ifaceModeLines_ok hm with ⟨hd, hmid⟩ | ⟨hd, hnil, hmid⟩ |
    ⟨hd, hnn, sl, hsl, hmid⟩
  · refine ⟨fun ns ads _ _ hf _ => bool_absurd hd hf, fun _ l hl => ?_⟩
    rw [hline, hmid] at hl
    rcases lines_shapes_nonstatic (Or.inl rfl) hl with
      hs | hs | hs | hs | hs | hs | hs
    · exact starts_excl (by decide) (by decide) hs
    · exact starts_excl (by decide) (by decide) hs
    · rw [hs]
      decide
    · exact starts_excl (by decide) (by decide) hs
    · exact starts_excl (by decide) (by decide) hs
    · exact starts_excl (by decide) (by decide) hs
    · exact starts_excl (by decide) (by decide) hs
  · refine ⟨fun ns ads _ _ _ hne => absurd hnil hne, fun _ l hl => ?_⟩
    rw [hline, hmid] at hl
    rcases lines_shapes_nonstatic (Or.inr rfl) hl with
      hs | hs | hs | hs | hs | hs | hs
    · exact starts_excl (by decide) (by decide) hs
    · exact starts_excl (by decide) (by decide) hs
    · rw [hs]
      decide
    · exact starts_excl (by decide) (by decide) hs
    · exact starts_excl (by decide) (by decide) hs
    · exact starts_excl (by decide) (by decide) hs
    · exact starts_excl (by decide) (by decide) hs
  · refine ⟨fun ns ads hns hads _ _ => ?_, fun hor => ?_⟩
    · have hdl : dnsLines cfg = [dnsLine (String.intercalate " " ads)] := by
        simp [dnsLines, hns, hads]
      rw [hline, hmid, hdl]
      simp
    · rcases hor with hf | hnil
      · exact bool_absurd hf hd
      · exact absurd hnil hnn

/-- Witness for C7 amended at a concrete static spec. -/
theorem C7_dns_static_only_witness :
    dnsLine "8.8.8.8 1.1.1.1" ∈ [autoLine "eth1", staticLine "eth1",
      addressLine "10.0.0.1", netmaskLine "255.255.255.0",
      dnsLine "8.8.8.8 1.1.1.1", ""] :=
  (C7_dns_static_only "eth1"
      { addresses := ["10.0.0.1/24"],
        nameservers := some { addresses := some ["8.8.8.8", "1.1.1.1"] } } false
      [autoLine "eth1", staticLine "eth1", addressLine "10.0.0.1",
        netmaskLine "255.255.255.0", dnsLine "8.8.8.8 1.1.1.1", ""]
      none rfl).1 { addresses := some ["8.8.8.8", "1.1.1.1"] }
    ["8.8.8.8", "1.1.1.1"] rfl rfl rfl (by decide)

/-! Lemmas about convert: decomposition and error messages. -/

theorem pref_of_pref_append :
    ∀ (p c t : List Char), p.length ≤ c.length → p <+: c ++ t → p <+: c := by
  intro p
  induction p with
  | nil =>
    intro c t _ _
    exact List.nil_prefix
  | cons x xs ih =>
    intro c t hlen hpre
    cases c with
    | nil => simp at hlen
    | cons y ys =>
      rw [List.cons_append] at hpre
      rcases List.cons_prefix_cons.mp hpre with ⟨hxy, htail⟩
      rw [hxy]
      exact List.cons_prefix_cons.mpr ⟨rfl, ih ys t (by simpa using hlen) htail⟩

/-- A short non-prefix of the left part is no prefix of the whole. -/
theorem strStarts_false_append {p c : String} (t : String)
    (hlen : p.data.length ≤ c.data.length)
    (hf : strStarts p c = false) : strStarts p (c ++ t) = false := by
  cases hs : strStarts p (c ++ t) with
  | false => rfl
  | true =>
    rw [strStarts_iff, String.data_append] at hs
    have := pref_of_pref_append p.data c.data t.data hlen hs
    rw [← strStarts_iff] at this
    exact bool_absurd this hf

theorem addrLinesOne_error {addr e : String}
    (h : addrLinesOne addr = .error e) : strStarts "Unsupported" e = false := by
  unfold addrLinesOne at h
  by_cases hc : addr.data.contains '/'
  · rw [if_pos hc] at h
    rcases hsp : splitOnSlash addr with _ | ⟨ip, _ | ⟨pl, _ | ⟨x, xs⟩⟩⟩
    · rw [hsp] at h
      simp only [Except.error.injEq] at h
      rw [← h]
      decide
    · rw [hsp] at h
      simp only [Except.error.injEq] at h
      rw [← h]
      decide
    · rw [hsp] at h
      have h2 : (match parseNat pl with
          | some n =>
            if n ≤ 32 then
              Except.ok [addressLine ip, netmaskLine (cidrToNetmask n)]
            else Except.error "negative shift count"
          | none =>
            Except.error ("invalid literal for int() with base 10: " ++ pl))
          = (Except.error e : Except String (List String)) := h
      clear h
      cases hn : parseNat pl with
      | none =>
        rw [hn] at h2
        simp only [Except.error.injEq] at h2
        rw [← h2]
        exact strStarts_false_append pl (by decide) (by decide)
      | some n =>
        rw [hn] at h2
        have h3 : (if n ≤ 32 then
              Except.ok [addressLine ip, netmaskLine (cidrToNetmask n)]
            else Except.error "negative shift count")
            = (Except.error e : Except String (List String)) := h2
        clear h2
        by_cases hle : n ≤ 32
        · rw [if_pos hle] at h3
          exact absurd h3 (by simp)
        · rw [if_neg hle] at h3
          simp only [Except.error.injEq] at h3
          rw [← h3]
          decide
    · rw [hsp] at h
      simp only [Except.error.injEq] at h
      rw [← h]
      decide
  · rw [if_neg hc] at h
    exact absurd h (by simp)

theorem staticAddrLines_error :
    ∀ {as : List String} {e : String}, staticAddrLines as = .error e →
    strStarts "Unsupported" e = false := by
  intro as
  induction as with
  | nil =>
    intro e h
    rw [staticAddrLines] at h
    exact absurd h (by simp)
  | cons a rest ih =>
    intro e h
    rw [staticAddrLines] at h
    cases ha : addrLinesOne a with
    | error e2 =>
      rw [ha] at h
      simp only [Except.error.injEq] at h
      rw [← h]
      exact addrLinesOne_error ha
    | ok ls =>
      rw [ha] at h
      cases hr : staticAddrLines rest with
      | error e2 =>
        rw [hr] at h
        simp only [Except.error.injEq] at h
        rw [← h]
        exact ih hr
      | ok tl =>
        rw [hr] at h
        exact absurd h (by simp)

theorem ifaceModeLines_error {ifn : String} {cfg : IfaceConfig} {e : String}
    (h : ifaceModeLines ifn cfg = .error e) :
    strStarts "Unsupported" e = false := by
  unfold ifaceModeLines at h
  cases hd : cfg.dhcp4 with
  | true =>
    rw [hd] at h
    exact absurd h (by simp)
  | false =>
    rw [hd] at h
    simp only [Bool.false_eq_true, if_false] at h
    cases he : cfg.addresses.isEmpty with
    | true =>
      rw [he] at h
      exact absurd h (by simp)
    | false =>
      rw [he] at h
      simp only [Bool.false_eq_true, if_false] at h
      cases hs : staticAddrLines cfg.addresses with
      | error e2 =>
        rw [hs] at h
        simp only [Except.error.injEq] at h
        rw [← h]
        exact staticAddrLines_error hs
      | ok sl =>
        rw [hs] at h
        exact absurd h (by simp)

theorem addInterfaceConfig_error {ifn : String} {cfg : IfaceConfig} {w : Bool}
    {e : String} (h : addInterfaceConfig ifn cfg w = .error e) :
    strStarts "Unsupported" e = false := by
  unfold addInterfaceConfig at h
  cases hm : ifaceModeLines ifn cfg with
  | error e2 =>
    rw [hm] at h
    simp only [Except.error.injEq] at h
    rw [← h]
    exact ifaceModeLines_error hm
  | ok mid =>
    rw [hm] at h
    exact absurd h (by simp)

theorem processInterfaces_error :
    ∀ {es : List (String × IfaceConfig)} {w : Bool} {e : String},
    processInterfaces es w = .error e → strStarts "Unsupported" e = false := by
  intro es
  induction es with
  | nil =>
    intro w e h
    rw [processInterfaces] at h
    exact absurd h (by simp)
  | cons hd rest ih =>
    intro w e h
    obtain ⟨k, v⟩ := hd
    rw [processInterfaces] at h
    cases hr : (k == "renderer") with
    | true =>
      simp only [hr, if_true] at h
      exact ih h
    | false =>
      simp only [hr, Bool.false_eq_true, if_false] at h
      cases ha : addInterfaceConfig k v w with
      | error e2 =>
        rw [ha] at h
        simp only [Except.error.injEq] at h
        rw [← h]
        exact addInterfaceConfig_error ha
      | ok p =>
        obtain ⟨bl, wp⟩ := p
        rw [ha] at h
        cases hp : processInterfaces rest w with
        | error e2 =>
          rw [hp] at h
          have h2 : (Except.error e2 : Except String
              (List String × List (String × String))) = Except.error e := h
          simp only [Except.error.injEq] at h2
          rw [← h2]
          exact ih hp
        | ok rp =>
          obtain ⟨restL, restW⟩ := rp
          rw [hp] at h
          exact absurd h (by simp)

theorem ethResult_error {c : Config} {e : String}
    (h : ethResult c = .error e) : strStarts "Unsupported" e = false := by
  unfold ethResult at h
  cases he : (netOf c).ethernets with
  | none =>
    rw [he] at h
    exact absurd h (by simp)
  | some es =>
    rw [he] at h
    exact processInterfaces_error h

theorem wifiResult_error {c : Config} {e : String}
    (h : wifiResult c = .error e) : strStarts "Unsupported" e = false := by
  unfold wifiResult at h
  cases he : (netOf c).wifis with
  | none =>
    rw [he] at h
    exact absurd h (by simp)
  | some ws =>
    rw [he] at h
    exact processInterfaces_error h

theorem convertLines_ok {c : Config} {lines : List String}
    {wpa : List (String × String)}
    (h : convertLines c = .ok (lines, wpa)) :
    ∃ ethL ethW wifiL wifiW,
      ethResult c = .ok (ethL, ethW)
      ∧ wifiResult c = .ok (wifiL, wifiW)
      ∧ lines = loopbackBlock ++ ethL
          ++ (if ethHasEth0 c then [] else defaultEth0Block) ++ wifiL
      ∧ wpa = ethW ++ wifiW := by
  unfold convertLines at h
  by_cases hv : c.top.version.getD 2 ≠ 2
  · rw [if_pos hv] at h
    exact absurd h (by simp)
  · rw [if_neg hv] at h
    cases he : ethResult c with
    | error e =>
      rw [he] at h
      exact absurd h (by simp)
    | ok ep =>
      obtain ⟨ethL, ethW⟩ := ep
      rw [he] at h
      cases hw : wifiResult c with
      | error e =>
        rw [hw] at h
        exact absurd h (by simp)
      | ok wp2 =>
        obtain ⟨wifiL, wifiW⟩ := wp2
        rw [hw] at h
        have h2 : Except.ok (loopbackBlock ++ ethL
            ++ (if ethHasEth0 c then [] else defaultEth0Block) ++ wifiL,
            ethW ++ wifiW) = Except.ok (lines, wpa) := h
        simp only [Except.ok.injEq, Prod.mk.injEq] at h2
        exact ⟨ethL, ethW, wifiL, wifiW, rfl, rfl, h2.1.symm, h2.2.symm⟩

theorem processInterfaces_block :
    ∀ {es : List (String × IfaceConfig)} {w : Bool} {L : List String}
      {W : List (String × String)} {k : String} {v : IfaceConfig},
    (k, v) ∈ es → k ≠ "renderer" → processInterfaces es w = .ok (L, W) →
    ∃ bl bw, addInterfaceConfig k v w = .ok (bl, bw) ∧ bl <:+: L := by
  intro es
  induction es with
  | nil =>
    intro w L W k v hmem hk h
    simp at hmem
  | cons hd rest ih =>
    intro w L W k v hmem hk h
    obtain ⟨k2, v2⟩ := hd
    rw [processInterfaces] at h
    cases hr : (k2 == "renderer") with
    | true =>
      simp only [hr, if_true] at h
      rcases List.mem_cons.mp hmem with he | hmem2
      · injection he with h1 h3
        rw [h1] at hk
        exact absurd (beq_iff_eq.mp hr) hk
      · exact ih hmem2 hk h
    | false =>
      simp only [hr, Bool.false_eq_true, if_false] at h
      cases ha : addInterfaceConfig k2 v2 w with
      | error e =>
        rw [ha] at h
        exact absurd h (by simp)
      | ok p =>
        obtain ⟨bl2, wp2⟩ := p
        rw [ha] at h
        cases hp : processInterfaces rest w with
        | error e =>
          rw [hp] at h
          exact absurd h (by simp)
        | ok rp =>
          obtain ⟨restL, restW⟩ := rp
          rw [hp] at h
          have h2 : Except.ok (bl2 ++ restL, wpaEntry k2 wp2 ++ restW)
              = Except.ok (L, W) := h
          simp only [Except.ok.injEq, Prod.mk.injEq] at h2
          rcases List.mem_cons.mp hmem with he | hmem2
          · injection he with h1 h3
            rw [← h1, ← h3] at ha
            refine ⟨bl2, wp2, ha, ?_⟩
            rw [← h2.1]
            exact ⟨[], restL, by simp⟩
          · obtain ⟨bl, bw, hadd, hinf⟩ := ih hmem2 hk hp
            refine ⟨bl, bw, hadd, ?_⟩
            rw [← h2.1]
            obtain ⟨s, t, hst⟩ := hinf
            exact ⟨bl2 ++ s, t, by rw [← hst]; simp [List.append_assoc]⟩

/-- C5 amended: a top-level version key (also when the document itself
is the network section) that is present and not 2 makes convert fail
with the unsupported-version error before any lines are produced; when
the top-level version key is absent, no failure carries the
unsupported-version message.  A version key nested inside a present
network wrapper is not consulted at all (see the counterexample). -/
theorem C5_version_check (c : Config) :
    (∀ v, c.top.version = some v → v ≠ 2 →
       convertLines c
         = .error ("Unsupported netplan version: " ++ toString v))
    ∧ (c.top.version = none →
       ∀ e, convertLines c = .error e → strStarts "Unsupported" e = false) := by
  constructor
  · intro v hv hne
    unfold convertLines
    rw [hv]
    simp only [Option.getD_some]
    rw [if_pos hne]
  · intro hnone e h
    unfold convertLines at h
    rw [hnone] at h
    simp only [Option.getD_none] at h
    rw [if_neg (by simp)] at h
    cases he : ethResult c with
    | error e2 =>
      rw [he] at h
      simp only [Except.error.injEq] at h
      rw [← h]
      exact ethResult_error he
    | ok ep =>
      obtain ⟨ethL, ethW⟩ := ep
      rw [he] at h
      cases hw : wifiResult c with
      | error e2 =>
        rw [hw] at h
        have h2 : (Except.error e2 : Except String
            (List String × List (String × String))) = Except.error e := h
        simp only [Except.error.injEq] at h2
        rw [← h2]
        exact wifiResult_error hw
      | ok wp2 =>
        obtain ⟨wifiL, wifiW⟩ := wp2
        rw [hw] at h
        exact absurd h (by simp)

/-- Witness for C5 amended: a top-level version of 1 fails. -/
theorem C5_version_check_witness :
    convertLines { top := { version := some 1 } }
      = .error ("Unsupported netplan version: " ++ toString (1 : Int)) :=
  (C5_version_check { top := { version := some 1 } }).1 1 rfl (by decide)

/-- Counterexample to C5: a version of 1 nested inside the network
wrapper is not checked, and translation succeeds. -/
theorem C5_counterexample :
    ({ network := some { version := some 1 } } : Config).network
      = some { version := some 1 }
    ∧ convertLines { network := some { version := some 1 } }
      = .ok (["auto lo", "iface lo inet loopback", "",
              "auto eth0", "iface eth0 inet dhcp", ""], []) :=
  ⟨rfl, rfl⟩

/-- C2: when the ethernets mapping carries no eth0 key the output
contains the implicit default eth0 DHCP block; when it does carry one,
the output is exactly loopback, the translated ethernet blocks (the
translated eth0 block among them) and the wifi blocks, with no default
eth0 block inserted. -/
theorem C2_default_eth0 (c : Config) (lines : List String)
    (wpa : List (String × String))
    (h : convertLines c = .ok (lines, wpa)) :
    (ethHasEth0 c = false → defaultEth0Block <:+: lines)
    ∧ (ethHasEth0 c = true →
       ∃ es ethL ethW wifiL wifiW spec bl bw,
         (netOf c).ethernets = some es
         ∧ processInterfaces es false = .ok (ethL, ethW)
         ∧ wifiResult c = .ok (wifiL, wifiW)
         ∧ ("eth0", spec) ∈ es
         ∧ addInterfaceConfig "eth0" spec false = .ok (bl, bw)
         ∧ bl <:+: ethL
         ∧ lines = loopbackBlock ++ ethL ++ wifiL) := by
  obtain ⟨ethL, ethW, wifiL, wifiW, he, hw, hline, hwpa⟩ := convertLines_ok h
  constructor
  · intro hno
    rw [hline, hno]
    simp only [Bool.false_eq_true, if_false]
    exact ⟨loopbackBlock ++ ethL, wifiL, by simp [List.append_assoc]⟩
  · intro hyes
    have hes : ∃ es, (netOf c).ethernets = some es
        ∧ (es.map Prod.fst).contains "eth0" = true := by
      unfold ethHasEth0 at hyes
      cases hee : (netOf c).ethernets with
      | none => rw [hee] at hyes; exact absurd hyes (by simp)
      | some es => rw [hee] at hyes; exact ⟨es, rfl, hyes⟩
    obtain ⟨es, hee, hc0⟩ := hes
    have hmemk : "eth0" ∈ es.map Prod.fst := by
      simpa using hc0
    obtain ⟨pr, hpr, hfst⟩ := List.mem_map.mp hmemk
    obtain ⟨k0, spec⟩ := pr
    have hmem : ("eth0", spec) ∈ es := by
      rw [← hfst]
      exact hpr
    have hpe : processInterfaces es false = .ok (ethL, ethW) := by
      unfold ethResult at he
      rw [hee] at he
      exact he
    obtain ⟨bl, bw, hadd, hinf⟩ :=
      processInterfaces_block hmem (by decide) hpe
    refine ⟨es, ethL, ethW, wifiL, wifiW, spec, bl, bw, hee, hpe, hw, hmem,
      hadd, hinf, ?_⟩
    rw [hline, hyes]
    simp

/-- Witness for C2 at a config with an explicit eth0 entry. -/
theorem C2_default_eth0_witness :
    defaultEth0Block <:+:
      ["auto lo", "iface lo inet loopback", "",
       "auto eth0", "iface eth0 inet dhcp", "",
       "auto wlan1", "iface wlan1 inet manual", ""] :=
  (C2_default_eth0
    { network := some { wifis := some [("wlan1", {})] } }
    ["auto lo", "iface lo inet loopback", "",
     "auto eth0", "iface eth0 inet dhcp", "",
     "auto wlan1", "iface wlan1 inet manual", ""] [] rfl).1 rfl

/-! Lemmas for the wireless registration claim. -/

theorem mem_mid_shapes {ifn : String} {cfg : IfaceConfig} {mid : List String}
    {l : String} (hm : ifaceModeLines ifn cfg = .ok mid) (hl : l ∈ mid) :
    strStarts "iface " l = true ∨ strStarts "    address " l = true
    ∨ strStarts "    netmask " l = true ∨ strStarts "    gateway " l = true
    ∨ strStarts "    dns-" l = true := by
  rcases ifaceModeLines_ok hm with ⟨hd, hmid⟩ | ⟨hd, hnil, hmid⟩ |
    ⟨hd, hnn, sl, hsl, hmid⟩
  · rw [hmid] at hl
    simp at hl
    rw [hl]
    exact Or.inl (starts_dhcpLine ifn)
  · rw [hmid] at hl
    simp at hl
    rw [hl]
    exact Or.inl (starts_manualLine ifn)
  · rw [hmid] at hl
    simp only [List.mem_append, List.mem_singleton, or_assoc] at hl
    rcases hl with hl | hl | hl | hl
    · rw [hl]
      exact Or.inl (starts_staticLine ifn)
    · rcases mem_staticAddrLines hsl l hl with ⟨ip, he⟩ | ⟨m2, he⟩
      · rw [he]
        exact Or.inr (Or.inl (starts_addressLine ip))
      · rw [he]
        exact Or.inr (Or.inr (Or.inl (starts_netmaskLine m2)))
    · rcases mem_gatewayLines hl with ⟨g, _, he⟩
      rw [he]
      exact Or.inr (Or.inr (Or.inr (Or.inl (starts_gatewayLine g))))
    · rcases mem_dnsLines hl with ⟨s, he⟩
      rw [he]
      exact Or.inr (Or.inr (Or.inr (Or.inr (starts_dnsLine s))))

/-- The interface block of a wifi interface with access points carries
each of the two wpa directive lines exactly once. -/
theorem block_wpa_counts {ifn : String} {cfg : IfaceConfig}
    {aps : List (String × APConfig)} {lines : List String} {wpa : Option String}
    (hap : cfg.accessPoints = some aps)
    (h : addInterfaceConfig ifn cfg true = .ok (lines, wpa)) :
    lines.count wpaDriverLine = 1 ∧ lines.count (wpaConfLine ifn) = 1 := by
  obtain ⟨mid, hm, hline, hwpa⟩ := addInterfaceConfig_ok h
  have h1 : (wifiPart ifn cfg true).1 = [wpaDriverLine, wpaConfLine ifn] := by
    simp [wifiPart, hap]
  subst hline
  rw [h1]
  have hne : wpaConfLine ifn ≠ wpaDriverLine :=
    ne_of_starts (starts_wpaConfLine ifn) (by decide)
  have hne2 : wpaDriverLine ≠ wpaConfLine ifn :=
    fun hh => hne hh.symm
  constructor
  · have n1 : wpaDriverLine ∉ [autoLine ifn] := by
      intro hmem
      simp at hmem
      have ha : strStarts "    wpa-" wpaDriverLine = true := by decide
      exact absurd hmem (ne_of_starts ha
        (starts_excl (by decide) (by decide) (starts_autoLine ifn)))
    have n2 : wpaDriverLine ∉ mid := by
      intro hmem
      rcases mem_mid_shapes hm hmem with hs | hs | hs | hs | hs <;>
        exact bool_absurd hs (by decide)
    have n3 : wpaDriverLine ∉ mtuLines cfg := fun hmem =>
      bool_absurd (starts_mtuPart hmem) (by decide)
    have n4 : wpaDriverLine ∉ routesLines cfg := by
      intro hmem
      rcases starts_routesPart hmem with hs | hs <;>
        exact bool_absurd hs (by decide)
    have n5 : wpaDriverLine ∉ ([""] : List String) := by decide
    simp only [List.count_append, List.count_eq_zero.mpr n1,
      List.count_eq_zero.mpr n2, List.count_eq_zero.mpr n3,
      List.count_eq_zero.mpr n4, List.count_eq_zero.mpr n5]
    have hpair : List.count wpaDriverLine [wpaDriverLine, wpaConfLine ifn]
        = 1 := by
      rw [List.count_cons_self, List.count_cons_of_ne hne2, List.count_nil]
    rw [hpair]
  · have n1 : wpaConfLine ifn ∉ [autoLine ifn] := by
      intro hmem
      simp at hmem
      exact absurd hmem (ne_of_starts (starts_wpaConfLine ifn)
        (starts_excl (by decide) (by decide) (starts_autoLine ifn)))
    have n2 : wpaConfLine ifn ∉ mid := by
      intro hmem
      rcases mem_mid_shapes hm hmem with hs | hs | hs | hs | hs <;>
        exact bool_absurd hs
          (starts_excl (by decide) (by decide) (starts_wpaConfLine ifn))
    have n3 : wpaConfLine ifn ∉ mtuLines cfg := fun hmem =>
      bool_absurd (starts_mtuPart hmem)
        (starts_excl (by decide) (by decide) (starts_wpaConfLine ifn))
    have n4 : wpaConfLine ifn ∉ routesLines cfg := by
      intro hmem
      rcases starts_routesPart hmem with hs | hs
      · exact bool_absurd hs
          (starts_excl (by decide) (by decide) (starts_wpaConfLine ifn))
      · exact bool_absurd hs
          (starts_excl (by decide) (by decide) (starts_wpaConfLine ifn))
    have n5 : wpaConfLine ifn ∉ ([""] : List String) := by
      intro hmem
      simp at hmem
      exact absurd hmem (ne_of_starts (starts_wpaConfLine ifn) (by decide))
    simp only [List.count_append, List.count_eq_zero.mpr n1,
      List.count_eq_zero.mpr n2, List.count_eq_zero.mpr n3,
      List.count_eq_zero.mpr n4, List.count_eq_zero.mpr n5]
    have hpair : List.count (wpaConfLine ifn) [wpaDriverLine, wpaConfLine ifn]
        = 1 := by
      rw [List.count_cons_of_ne hne, List.count_cons_self, List.count_nil]
    rw [hpair]

theorem processInterfaces_keys :
    ∀ {es : List (String × IfaceConfig)} {w : Bool} {L : List String}
      {W : List (String × String)},
    processInterfaces es w = .ok (L, W) → ∀ e ∈ W, e.1 ∈ es.map Prod.fst := by
  intro es
  induction es with
  | nil =>
    intro w L W h e he
    rw [processInterfaces] at h
    have h2 : Except.ok (([] : List String), ([] : List (String × String)))
        = Except.ok (L, W) := h
    simp only [Except.ok.injEq, Prod.mk.injEq] at h2
    rw [← h2.2] at he
    simp at he
  | cons hd rest ih =>
    intro w L W h e he
    obtain ⟨k2, v2⟩ := hd
    rw [processInterfaces] at h
    cases hr : (k2 == "renderer") with
    | true =>
      simp only [hr, if_true] at h
      simp only [List.map_cons]
      exact List.mem_cons_of_mem _ (ih h e he)
    | false =>
      simp only [hr, Bool.false_eq_true, if_false] at h
      cases ha : addInterfaceConfig k2 v2 w with
      | error e2 =>
        rw [ha] at h
        exact absurd h (by simp)
      | ok p =>
        obtain ⟨bl2, wp2⟩ := p
        rw [ha] at h
        cases hp : processInterfaces rest w with
        | error e2 =>
          rw [hp] at h
          exact absurd h (by simp)
        | ok rp =>
          obtain ⟨restL, restW⟩ := rp
          rw [hp] at h
          have h2 : Except.ok (bl2 ++ restL, wpaEntry k2 wp2 ++ restW)
              = Except.ok (L, W) := h
          simp only [Except.ok.injEq, Prod.mk.injEq] at h2
          rw [← h2.2] at he
          rcases List.mem_append.mp he with hh | hh
          · have hfst : e.1 = k2 := by
              cases wp2 with
              | none => simp [wpaEntry] at hh
              | some wdoc =>
                simp [wpaEntry] at hh
                rw [hh]
            simp only [List.map_cons]
            rw [hfst]
            exact List.mem_cons_self _ _
          · simp only [List.map_cons]
            exact List.mem_cons_of_mem _ (ih hp e hh)

theorem processInterfaces_wpa :
    ∀ {ws : List (String × IfaceConfig)} {L : List String}
      {W : List (String × String)} {ifn : String} {cfg : IfaceConfig}
      {aps : List (String × APConfig)},
    (ws.map Prod.fst).Nodup → (ifn, cfg) ∈ ws → ifn ≠ "renderer" →
    cfg.accessPoints = some aps →
    processInterfaces ws true = .ok (L, W) →
    (ifn, generateWpaSupplicantConfig aps) ∈ W
    ∧ W.countP (fun e => e.1 == ifn) = 1 := by
  intro ws
  induction ws with
  | nil =>
    intro L W ifn cfg aps hnd hmem hrd hap h
    simp at hmem
  | cons hd rest ih =>
    intro L W ifn cfg aps hnd hmem hrd hap h
    obtain ⟨k2, v2⟩ := hd
    rw [processInterfaces] at h
    have hnd2 : (rest.map Prod.fst).Nodup := by
      simp only [List.map_cons] at hnd
      exact hnd.of_cons
    have hk2nm : k2 ∉ rest.map Prod.fst := by
      simp only [List.map_cons] at hnd
      exact (List.nodup_cons.mp hnd).1
    cases hr : (k2 == "renderer") with
    | true =>
      simp only [hr, if_true] at h
      rcases List.mem_cons.mp hmem with he | hmem2
      · injection he with h1 h3
        rw [h1] at hrd
        exact absurd (beq_iff_eq.mp hr) hrd
      · exact ih hnd2 hmem2 hrd hap h
    | false =>
      simp only [hr, Bool.false_eq_true, if_false] at h
      cases ha : addInterfaceConfig k2 v2 true with
      | error e2 =>
        rw [ha] at h
        exact absurd h (by simp)
      | ok p =>
        obtain ⟨bl2, wp2⟩ := p
        rw [ha] at h
        cases hp : processInterfaces rest true with
        | error e2 =>
          rw [hp] at h
          exact absurd h (by simp)
        | ok rp =>
          obtain ⟨restL, restW⟩ := rp
          rw [hp] at h
          have h2 : Except.ok (bl2 ++ restL, wpaEntry k2 wp2 ++ restW)
              = Except.ok (L, W) := h
          simp only [Except.ok.injEq, Prod.mk.injEq] at h2
          rcases List.mem_cons.mp hmem with he | hmem2
          · injection he with h1 h3
            obtain ⟨mid, hm, hbl, hw2⟩ := addInterfaceConfig_ok ha
            have hwp2 : wp2 = some (generateWpaSupplicantConfig aps) := by
              rw [hw2]
              rw [← h3] at *
              simp [wifiPart, hap]
            have hW : W = (ifn, generateWpaSupplicantConfig aps) :: restW := by
              rw [← h2.2, hwp2, h1]
              rfl
            constructor
            · rw [hW]
              exact List.mem_cons_self _ _
            · rw [hW]
              have hz : restW.countP (fun e => e.1 == ifn) = 0 := by
                rw [List.countP_eq_zero]
                intro e he2 hbeq
                have hmk := processInterfaces_keys hp e he2
                rw [beq_iff_eq] at hbeq
                rw [hbeq, h1] at hmk
                exact hk2nm hmk
              rw [List.countP_cons]
              rw [hz]
              simp
          · have hifnk : ifn ∈ rest.map Prod.fst :=
              List.mem_map.mpr ⟨(ifn, cfg), hmem2, rfl⟩
            have hk2ne : k2 ≠ ifn := by
              intro hh
              rw [hh] at hk2nm
              exact hk2nm hifnk
            obtain ⟨hmemW, hcnt⟩ := ih hnd2 hmem2 hrd hap hp
            constructor
            · rw [← h2.2]
              exact List.mem_append_right _ hmemW
            · rw [← h2.2, List.countP_append, hcnt]
              have hz : (wpaEntry k2 wp2).countP (fun e => e.1 == ifn) = 0 := by
                cases wp2 with
                | none => rfl
                | some wdoc =>
                  simp [wpaEntry, List.countP_cons, hk2ne]
              rw [hz]

/-- C8: for a wifi interface whose spec carries accessPoints (interface
names in the mapping pairwise distinct, as in a dictionary), the pass
over the wifi mapping registers exactly one credential document keyed by
that exact interface name, with the generated wpa_supplicant content,
and the interface block carries exactly one wpa-driver wext line and
exactly one wpa-conf line naming that interface. -/
theorem C8_wireless_registration (ws : List (String × IfaceConfig))
    (ifn : String) (cfg : IfaceConfig) (aps : List (String × APConfig))
    (L : List String) (W : List (String × String))
    (hnd : (ws.map Prod.fst).Nodup)
    (hmem : (ifn, cfg) ∈ ws) (hrd : ifn ≠ "renderer")
    (hap : cfg.accessPoints = some aps)
    (h : processInterfaces ws true = .ok (L, W)) :
    (ifn, generateWpaSupplicantConfig aps) ∈ W
    ∧ W.countP (fun e => e.1 == ifn) = 1
    ∧ ∃ bl bw, addInterfaceConfig ifn cfg true = .ok (bl, bw) ∧ bl <:+: L
        ∧ bl.count wpaDriverLine = 1 ∧ bl.count (wpaConfLine ifn) = 1 := by
  obtain ⟨hmemW, hcnt⟩ := processInterfaces_wpa hnd hmem hrd hap h
  obtain ⟨bl, bw, hadd, hinf⟩ := processInterfaces_block hmem hrd h
  obtain ⟨hc1, hc2⟩ := block_wpa_counts hap hadd
  exact ⟨hmemW, hcnt, bl, bw, hadd, hinf, hc1, hc2⟩

/-- Witness for C8 at a one-interface wifi mapping. -/
theorem C8_wireless_registration_witness :
    ("wlan0", generateWpaSupplicantConfig [("Home", { password := some "pw" })])
      ∈ [("wlan0",
          generateWpaSupplicantConfig [("Home", { password := some "pw" })])] :=
  (C8_wireless_registration
    [("wlan0", { accessPoints := some [("Home", { password := some "pw" })] })]
    "wlan0" { accessPoints := some [("Home", { password := some "pw" })] }
    [("Home", { password := some "pw" })] _ _
    (by simp) (List.mem_singleton.mpr rfl) (by decide) rfl rfl).1

end Netplan
